import Mathlib

/-!
# Verification of the Indigo OFStateManager group-table handlers

Shallow embedding of `src/modules/OFStateManager/module/src/group_handlers.c`.

The file models the group record store (a hashtable keyed by group id,
embedded as an association list), the forwarding backend adapter (an oracle
record of success functions and a counter query), and each request handler as
a pure function from the request fields and the current store to a result
carrying the new store, the sequence of backend calls made, and the messages
sent on the connection.
-/

namespace Indigo

/-- Modelled from the spec: the loci constant `OF_GROUP_MAX` (the spec's
`MAX_GROUP_ID`), the largest id a stored group may have; the constant is
defined in the loci codec, outside this repository's `src/`. Its value is the
standard OpenFlow `OFPG_MAX`. -/
def OF_GROUP_MAX : Nat := 0xffffff00

/-- Modelled from the spec: the loci constant `OF_GROUP_ALL` (the spec's
`ALL_GROUPS` wildcard sentinel), defined in the loci codec outside `src/`.
Its value is the standard OpenFlow `OFPG_ALL`; it exceeds `OF_GROUP_MAX`. -/
def OF_GROUP_ALL : Nat := 0xfffffffc

/-- Action buckets are opaque to this core: the handlers only copy, store and
emit them, never inspect them. A bucket is modelled as an abstract token. -/
abbrev Bucket := Nat

/-- `indigo_time_t` timestamps, modelled as nanosecond counts. -/
abbrev indigo_time_t := Nat

/-- The group record (`ind_core_group_t` in the source): id, group type,
owned bucket list, and the creation timestamp. -/
structure ind_core_group_t where
  id : Nat
  type : Nat
  buckets : List Bucket
  creation_time : indigo_time_t
deriving DecidableEq

/-- The group hashtable (`ind_core_group_hashtable`), embedded as a list of
records; handlers maintain at most one record per id. -/
abbrev Store := List ind_core_group_t

/-- `ind_core_group_lookup`: point lookup by id in the store. -/
def ind_core_group_lookup (st : Store) (id : Nat) : Option ind_core_group_t :=
  st.find? (fun g => g.id == id)

/-- The forwarding backend adapter (`indigo_fwd_group_*`), as an oracle:
whether a given add or modify call succeeds, and the counters returned by
`indigo_fwd_group_stats_get`. `delete` returns void, so it has no oracle. -/
structure Forwarding where
  addOk : Nat → Nat → List Bucket → Bool
  modifyOk : Nat → List Bucket → Bool
  statsGet : Nat → Nat

/-- One call made on the forwarding backend, in order. -/
inductive BackendCall where
  | add (id : Nat) (gtype : Nat) (buckets : List Bucket)
  | modify (id : Nat) (buckets : List Bucket)
  | delete (id : Nat)
deriving DecidableEq

/-- The group-mod error codes the handlers use (`OF_GROUP_MOD_FAILED_*`). -/
inductive ErrCode where
  | eperm
  | groupExists
  | invalidGroup
  | unknownGroup
deriving DecidableEq

/-- One entry of a group stats reply, as populated by
`ind_core_group_stats_entry_populate`. -/
structure StatsEntry where
  group_id : Nat
  duration_sec : Nat
  duration_nsec : Nat
  counters : Nat
deriving DecidableEq

/-- One entry of a group description stats reply. -/
structure DescStatsEntry where
  group_type : Nat
  group_id : Nat
  buckets : List Bucket
deriving DecidableEq

/-- A message sent on the connection. -/
inductive Msg where
  | errorReply (code : ErrCode)
  | statsReply (entries : List StatsEntry)
  | descStatsReply (entries : List DescStatsEntry)
deriving DecidableEq

/-- Result of a group-mod handler: the store after the call, the backend
calls made, and the messages sent, each in order. -/
structure HandlerResult where
  store : Store
  calls : List BackendCall
  msgs : List Msg
deriving DecidableEq

/-- Well-formedness invariant the handlers maintain on the store: every
stored id is in range and ids are unique. -/
def WFStore (st : Store) : Prop :=
  (∀ g ∈ st, g.id ≤ OF_GROUP_MAX) ∧ (st.map ind_core_group_t.id).Nodup

/-- `ind_core_group_add_handler`: validate, call the backend, insert. The
in-flight request's buckets are duplicated (`of_object_dup`) into the
record; with value semantics the stored list equals the requested one. -/
def ind_core_group_add_handler (fwd : Forwarding) (st : Store)
    (now : indigo_time_t) (id gtype : Nat) (buckets : List Bucket) :
    HandlerResult :=
  let group := if id ≤ OF_GROUP_MAX then ind_core_group_lookup st id else none
  match group with
  | some _ => ⟨st, [], [Msg.errorReply ErrCode.groupExists]⟩
  | none =>
    if OF_GROUP_MAX < id then
      ⟨st, [], [Msg.errorReply ErrCode.invalidGroup]⟩
    else if fwd.addOk id gtype buckets then
      ⟨⟨id, gtype, buckets, now⟩ :: st, [BackendCall.add id gtype buckets], []⟩
    else
      ⟨st, [BackendCall.add id gtype buckets],
        [Msg.errorReply ErrCode.invalidGroup]⟩

/-- In-place update of the record with the given id (`group->type = type;
group->buckets = of_object_dup(&buckets)` in the source). -/
def store_update (st : Store) (id gtype : Nat) (buckets : List Bucket) :
    Store :=
  st.map (fun g =>
    if g.id = id then { g with type := gtype, buckets := buckets } else g)

/-- `ind_core_group_modify_handler`: lookup, then backend modify in place
when the type is unchanged, else backend delete followed by backend add. -/
def ind_core_group_modify_handler (fwd : Forwarding) (st : Store)
    (id gtype : Nat) (buckets : List Bucket) : HandlerResult :=
  let group := if id ≤ OF_GROUP_MAX then ind_core_group_lookup st id else none
  match group with
  | none => ⟨st, [], [Msg.errorReply ErrCode.unknownGroup]⟩
  | some g =>
    if g.type = gtype then
      if fwd.modifyOk id buckets then
        ⟨store_update st id gtype buckets, [BackendCall.modify id buckets], []⟩
      else
        ⟨st, [BackendCall.modify id buckets],
          [Msg.errorReply ErrCode.invalidGroup]⟩
    else
      if fwd.addOk id gtype buckets then
        ⟨store_update st id gtype buckets,
          [BackendCall.delete id, BackendCall.add id gtype buckets], []⟩
      else
        ⟨st, [BackendCall.delete id, BackendCall.add id gtype buckets],
          [Msg.errorReply ErrCode.invalidGroup]⟩

/-- Removal of the record with the given id (`bighash_remove`). -/
def store_remove (st : Store) (id : Nat) : Store :=
  st.filter (fun g => g.id != id)

/-- Modelled from the spec: the wildcard-delete iteration. The BigHash
iterator (`bighash_iter_start` / `bighash_iter_next`, from the BigHash module
outside `src/`) visits every record present at the start exactly once and is
safe against removal of the visited record; each visit runs
`ind_core_group_delete_one`: backend delete, then removal from the store.
The first argument is the sequence of records the iterator visits. -/
def deleteAllLoop : List ind_core_group_t → Store → Store × List BackendCall
  | [], st => (st, [])
  | g :: rest, st =>
    let st1 := store_remove st g.id
    let r := deleteAllLoop rest st1
    (r.1, BackendCall.delete g.id :: r.2)

/-- `ind_core_group_delete_handler`: wildcard delete of every record, or
point delete, tolerating an absent in-range id. -/
def ind_core_group_delete_handler (st : Store) (id : Nat) : HandlerResult :=
  let group := if id ≤ OF_GROUP_MAX then ind_core_group_lookup st id else none
  if id = OF_GROUP_ALL then
    let r := deleteAllLoop st st
    ⟨r.1, r.2, []⟩
  else
    match group with
    | some g => ⟨store_remove st g.id, [BackendCall.delete g.id], []⟩
    | none =>
      if OF_GROUP_MAX < id then
        ⟨st, [], [Msg.errorReply ErrCode.invalidGroup]⟩
      else
        ⟨st, [], []⟩

/-- Modelled from the spec: `calc_duration` (defined outside this source
file) computes the elapsed duration `current_time − creation_time`, expressed
as whole seconds plus residual nanoseconds, never negative. Timestamps are
modelled in nanoseconds, so the pair is the delta's Euclidean division by
10^9. -/
def calc_duration (current creation : indigo_time_t) : Nat × Nat :=
  let delta := current - creation
  (delta / 1000000000, delta % 1000000000)

/-- `ind_core_group_stats_entry_populate`: fill one stats entry with the
group id, the elapsed duration, and the backend's counters. -/
def ind_core_group_stats_entry_populate (fwd : Forwarding)
    (now : indigo_time_t) (g : ind_core_group_t) : StatsEntry :=
  let d := calc_duration now g.creation_time
  ⟨g.id, d.1, d.2, fwd.statsGet g.id⟩

/-- The wildcard loop of `ind_core_group_stats_request_handler`: populate an
entry per visited record and append it; a failed append (reply capacity
`cap` exhausted) breaks out of the loop, keeping the entries so far. -/
def statsEntriesLoop (fwd : Forwarding) (now : indigo_time_t) (cap : Nat)
    (acc : List StatsEntry) : List ind_core_group_t → List StatsEntry
  | [] => acc
  | g :: rest =>
    let e := ind_core_group_stats_entry_populate fwd now g
    if acc.length < cap then statsEntriesLoop fwd now cap (acc ++ [e]) rest
    else acc

/-- Result of a stats-request handler: the store (unchanged by these
handlers) and the messages sent. -/
structure StatsResult where
  store : Store
  msgs : List Msg
deriving DecidableEq

/-- `ind_core_group_stats_request_handler`. `cap` is the reply's entry
capacity: `of_list_append` succeeds exactly while the entry list is shorter
than `cap`. On the single-id path a failed append is `AIM_DIE` — a fatal
invariant violation, modelled as `none` (the process dies, nothing is
sent). -/
def ind_core_group_stats_request_handler (fwd : Forwarding) (st : Store)
    (cap : Nat) (now : indigo_time_t) (id : Nat) : Option StatsResult :=
  if id = OF_GROUP_ALL then
    some ⟨st, [Msg.statsReply (statsEntriesLoop fwd now cap [] st)]⟩
  else if id ≤ OF_GROUP_MAX then
    match ind_core_group_lookup st id with
    | some g =>
      let e := ind_core_group_stats_entry_populate fwd now g
      if 0 < cap then some ⟨st, [Msg.statsReply [e]]⟩
      else none
    | none => some ⟨st, [Msg.statsReply []]⟩
  else
    some ⟨st, [Msg.statsReply []]⟩

/-- One description-stats entry, built from a stored record. -/
def descEntryOf (g : ind_core_group_t) : DescStatsEntry :=
  ⟨g.type, g.id, g.buckets⟩

/-- The loop of `ind_core_group_desc_stats_request_handler`: per record, set
the entry's fields (`setOk` says whether setting the buckets succeeds; a
failure is `AIM_DIE`, modelled `none`), then append; a failed append (reply
capacity `cap` exhausted) breaks, keeping the entries so far. -/
def descEntriesLoop (setOk : ind_core_group_t → Bool) (cap : Nat)
    (acc : List DescStatsEntry) : List ind_core_group_t →
    Option (List DescStatsEntry)
  | [] => some acc
  | g :: rest =>
    if setOk g then
      if acc.length < cap then
        descEntriesLoop setOk cap (acc ++ [descEntryOf g]) rest
      else some acc
    else none

/-- `ind_core_group_desc_stats_request_handler`: emit an entry per stored
record, truncating on capacity exhaustion, then send the reply. -/
def ind_core_group_desc_stats_request_handler
    (setOk : ind_core_group_t → Bool) (st : Store) (cap : Nat) :
    Option StatsResult :=
  match descEntriesLoop setOk cap [] st with
  | some entries => some ⟨st, [Msg.descStatsReply entries]⟩
  | none => none

/-- Total nanoseconds represented by a stats entry's duration fields. -/
def durationNs (e : StatsEntry) : Nat :=
  e.duration_sec * 1000000000 + e.duration_nsec

/-- A backend oracle on which every add and modify succeeds. -/
def okFwd : Forwarding :=
  ⟨fun _ _ _ => true, fun _ _ => true, fun _ => 0⟩

/-- A backend oracle on which every add and modify fails. -/
def failFwd : Forwarding :=
  ⟨fun _ _ _ => false, fun _ _ => false, fun _ => 0⟩

/-! ## Helper lemmas about the store -/

theorem lookup_eq_none (st : Store) (id : Nat) (h : ∀ g ∈ st, g.id ≠ id) :
    ind_core_group_lookup st id = none := by
  rw [ind_core_group_lookup, List.find?_eq_none]
  intro g hg
  simpa using h g hg

theorem lookup_some (st : Store) (id : Nat) (g : ind_core_group_t)
    (h : ind_core_group_lookup st id = some g) : g ∈ st ∧ g.id = id := by
  have h' : st.find? (fun x => x.id == id) = some g := h
  exact ⟨List.mem_of_find?_eq_some h', by simpa using List.find?_some h'⟩

theorem countP_id_eq_one (st : Store) (id : Nat) (g : ind_core_group_t)
    (hnd : (st.map ind_core_group_t.id).Nodup) (hmem : g ∈ st)
    (hid : g.id = id) : st.countP (fun x => x.id == id) = 1 := by
  have hmem' : id ∈ st.map ind_core_group_t.id :=
    hid ▸ List.mem_map_of_mem ind_core_group_t.id hmem
  have h1 : (st.map ind_core_group_t.id).count id = 1 :=
    List.count_eq_one_of_mem hnd hmem'
  have h2 : (st.map ind_core_group_t.id).count id =
      st.countP (fun x => x.id == id) := by
    simp only [List.count, List.countP_map]
    rfl
  rw [← h2, h1]

end Indigo

namespace Indigo

/-! ## Claim theorems -/

/-- C1: an Add request with an in-range id that is absent from the store and
whose backend add call succeeds inserts a new record, so that a lookup of the
id afterwards returns a record whose type and buckets equal the requested
ones and whose creation time is the time captured at creation, and no
message is sent on the connection. -/
theorem C1_add_fresh_success (fwd : Forwarding) (st : Store)
    (now : indigo_time_t) (id gtype : Nat) (buckets : List Bucket)
    (hle : id ≤ OF_GROUP_MAX) (habs : ind_core_group_lookup st id = none)
    (hok : fwd.addOk id gtype buckets = true) :
    ind_core_group_add_handler fwd st now id gtype buckets =
      ⟨⟨id, gtype, buckets, now⟩ :: st, [BackendCall.add id gtype buckets],
        []⟩ ∧
    ind_core_group_lookup
        (ind_core_group_add_handler fwd st now id gtype buckets).store id =
      some ⟨id, gtype, buckets, now⟩ := by
  have hmain : ind_core_group_add_handler fwd st now id gtype buckets =
      ⟨⟨id, gtype, buckets, now⟩ :: st, [BackendCall.add id gtype buckets],
        []⟩ := by
    simp [ind_core_group_add_handler, hle, habs, Nat.not_lt.mpr hle, hok]
  refine ⟨hmain, ?_⟩
  rw [hmain]
  simp [ind_core_group_lookup]

/-- Witness for C1 at a concrete input. -/
theorem C1_witness :
    ind_core_group_add_handler okFwd [] 42 5 1 [7, 8] =
      ⟨[⟨5, 1, [7, 8], 42⟩], [BackendCall.add 5 1 [7, 8]], []⟩ ∧
    ind_core_group_lookup
        (ind_core_group_add_handler okFwd [] 42 5 1 [7, 8]).store 5 =
      some ⟨5, 1, [7, 8], 42⟩ :=
  C1_add_fresh_success okFwd [] 42 5 1 [7, 8] (by decide) rfl rfl

/-- C2: for every id above `OF_GROUP_MAX`, an Add request, and a Delete
request whose id is not the wildcard, both send exactly an `invalidGroup`
error reply, make no backend call, and leave the store unchanged. -/
theorem C2_out_of_range_add_delete (st : Store) (id : Nat)
    (hgt : OF_GROUP_MAX < id) :
    (∀ (fwd : Forwarding) (now : indigo_time_t) (gtype : Nat)
        (buckets : List Bucket),
      ind_core_group_add_handler fwd st now id gtype buckets =
        ⟨st, [], [Msg.errorReply ErrCode.invalidGroup]⟩) ∧
    (id ≠ OF_GROUP_ALL →
      ind_core_group_delete_handler st id =
        ⟨st, [], [Msg.errorReply ErrCode.invalidGroup]⟩) := by
  have hnle : ¬ id ≤ OF_GROUP_MAX := Nat.not_le.mpr hgt
  constructor
  · intro fwd now gtype buckets
    simp [ind_core_group_add_handler, hnle, hgt]
  · intro hne
    simp [ind_core_group_delete_handler, hnle, hgt, hne]

/-- Witness for C2 at a concrete input. -/
theorem C2_witness :
    ind_core_group_add_handler okFwd [] 0 0xffffff01 1 [] =
      ⟨[], [], [Msg.errorReply ErrCode.invalidGroup]⟩ ∧
    ind_core_group_delete_handler [] 0xffffff01 =
      ⟨[], [], [Msg.errorReply ErrCode.invalidGroup]⟩ :=
  ⟨(C2_out_of_range_add_delete [] 0xffffff01 (by decide)).1 okFwd 0 1 [],
    (C2_out_of_range_add_delete [] 0xffffff01 (by decide)).2 (by decide)⟩

/-- C3: an Add request whose id already has a record sends exactly a
`groupExists` error reply, makes no backend call, leaves the store unchanged
with the pre-existing record intact, and the store still holds exactly one
record for that id. -/
theorem C3_add_exists (fwd : Forwarding) (st : Store) (now : indigo_time_t)
    (id gtype : Nat) (buckets : List Bucket) (g : ind_core_group_t)
    (hwf : WFStore st) (hg : ind_core_group_lookup st id = some g) :
    ind_core_group_add_handler fwd st now id gtype buckets =
      ⟨st, [], [Msg.errorReply ErrCode.groupExists]⟩ ∧
    ind_core_group_lookup
        (ind_core_group_add_handler fwd st now id gtype buckets).store id =
      some g ∧
    (ind_core_group_add_handler fwd st now id gtype buckets).store.countP
      (fun x => x.id == id) = 1 := by
  obtain ⟨hmem, hid⟩ := lookup_some st id g hg
  have hle : id ≤ OF_GROUP_MAX := hid ▸ hwf.1 g hmem
  have hmain : ind_core_group_add_handler fwd st now id gtype buckets =
      ⟨st, [], [Msg.errorReply ErrCode.groupExists]⟩ := by
    simp [ind_core_group_add_handler, hle, hg]
  refine ⟨hmain, ?_, ?_⟩
  · rw [hmain]
    exact hg
  · rw [hmain]
    exact countP_id_eq_one st id g hwf.2 hmem hid

/-- Witness for C3 at a concrete input. -/
theorem C3_witness :
    ind_core_group_add_handler okFwd [⟨5, 1, [3], 7⟩] 9 5 2 [4] =
      ⟨[⟨5, 1, [3], 7⟩], [], [Msg.errorReply ErrCode.groupExists]⟩ ∧
    ind_core_group_lookup
        (ind_core_group_add_handler okFwd [⟨5, 1, [3], 7⟩] 9 5 2 [4]).store
        5 =
      some ⟨5, 1, [3], 7⟩ ∧
    (ind_core_group_add_handler okFwd [⟨5, 1, [3], 7⟩] 9 5 2 [4]).store.countP
      (fun x => x.id == 5) = 1 :=
  C3_add_exists okFwd [⟨5, 1, [3], 7⟩] 9 5 2 [4] ⟨5, 1, [3], 7⟩
    (by constructor <;> decide) rfl

/-- C4: a Modify request whose id has no record in the store — including
every out-of-range id and the wildcard sentinel, for which the lookup is
skipped — sends exactly an `unknownGroup` error reply, makes no backend
call, and leaves the store unchanged. -/
theorem C4_modify_absent (fwd : Forwarding) (st : Store) (id gtype : Nat)
    (buckets : List Bucket) (habs : ∀ g ∈ st, g.id ≠ id) :
    ind_core_group_modify_handler fwd st id gtype buckets =
      ⟨st, [], [Msg.errorReply ErrCode.unknownGroup]⟩ := by
  by_cases hle : id ≤ OF_GROUP_MAX
  · simp [ind_core_group_modify_handler, hle, lookup_eq_none st id habs]
  · simp [ind_core_group_modify_handler, hle]

/-- Witness for C4 at a concrete input: a Modify aimed at the wildcard
sentinel, with a nonempty store. -/
theorem C4_witness :
    ind_core_group_modify_handler okFwd [⟨5, 1, [3], 7⟩] 0xfffffffc 2 [4] =
      ⟨[⟨5, 1, [3], 7⟩], [], [Msg.errorReply ErrCode.unknownGroup]⟩ :=
  C4_modify_absent okFwd [⟨5, 1, [3], 7⟩] 0xfffffffc 2 [4] (by decide)

/-- C5: a Modify request on a stored record calls exactly the backend modify
operation when the requested type equals the stored type, and otherwise
calls backend delete followed by backend add with the new type and buckets,
never backend modify. -/
theorem C5_modify_backend_calls (fwd : Forwarding) (st : Store)
    (id gtype : Nat) (buckets : List Bucket) (g : ind_core_group_t)
    (hle : id ≤ OF_GROUP_MAX) (hg : ind_core_group_lookup st id = some g) :
    (ind_core_group_modify_handler fwd st id gtype buckets).calls =
      if g.type = gtype then [BackendCall.modify id buckets]
      else [BackendCall.delete id, BackendCall.add id gtype buckets] := by
  by_cases ht : g.type = gtype
  · cases hmo : fwd.modifyOk id buckets <;>
      simp [ind_core_group_modify_handler, hle, hg, ht, hmo]
  · cases hao : fwd.addOk id gtype buckets <;>
      simp [ind_core_group_modify_handler, hle, hg, ht, hao]

/-- Witness for C5 at a concrete input (type unchanged). -/
theorem C5_witness :
    (ind_core_group_modify_handler okFwd [⟨5, 1, [2], 0⟩] 5 1 [9]).calls =
      if (1 : Nat) = 1 then [BackendCall.modify 5 [9]]
      else [BackendCall.delete 5, BackendCall.add 5 1 [9]] :=
  C5_modify_backend_calls okFwd [⟨5, 1, [2], 0⟩] 5 1 [9] ⟨5, 1, [2], 0⟩
    (by decide) rfl

/-- C6: a Modify request on a stored record whose result-returning backend
call fails (the in-place modify, or the add half of the delete-then-add
path) sends exactly an `invalidGroup` error reply and leaves the stored
record unchanged: the store is exactly as before and lookup still returns
the old record. -/
theorem C6_modify_backend_failure (fwd : Forwarding) (st : Store)
    (id gtype : Nat) (buckets : List Bucket) (g : ind_core_group_t)
    (hle : id ≤ OF_GROUP_MAX) (hg : ind_core_group_lookup st id = some g)
    (hfail : (g.type = gtype ∧ fwd.modifyOk id buckets = false) ∨
      (g.type ≠ gtype ∧ fwd.addOk id gtype buckets = false)) :
    (ind_core_group_modify_handler fwd st id gtype buckets).store = st ∧
    (ind_core_group_modify_handler fwd st id gtype buckets).msgs =
      [Msg.errorReply ErrCode.invalidGroup] ∧
    ind_core_group_lookup
        (ind_core_group_modify_handler fwd st id gtype buckets).store id =
      some g := by
  rcases hfail with ⟨ht, hm⟩ | ⟨ht, ha⟩
  · have hmain : ind_core_group_modify_handler fwd st id gtype buckets =
        ⟨st, [BackendCall.modify id buckets],
          [Msg.errorReply ErrCode.invalidGroup]⟩ := by
      simp [ind_core_group_modify_handler, hle, hg, ht, hm]
    rw [hmain]
    exact ⟨rfl, rfl, hg⟩
  · have hmain : ind_core_group_modify_handler fwd st id gtype buckets =
        ⟨st, [BackendCall.delete id, BackendCall.add id gtype buckets],
          [Msg.errorReply ErrCode.invalidGroup]⟩ := by
      simp [ind_core_group_modify_handler, hle, hg, ht, ha]
    rw [hmain]
    exact ⟨rfl, rfl, hg⟩

/-- Witness for C6 at a concrete input (in-place modify fails). -/
theorem C6_witness :
    (ind_core_group_modify_handler failFwd [⟨5, 1, [3], 7⟩] 5 1 [9]).store =
      [⟨5, 1, [3], 7⟩] ∧
    (ind_core_group_modify_handler failFwd [⟨5, 1, [3], 7⟩] 5 1 [9]).msgs =
      [Msg.errorReply ErrCode.invalidGroup] ∧
    ind_core_group_lookup
        (ind_core_group_modify_handler failFwd [⟨5, 1, [3], 7⟩] 5 1
          [9]).store 5 =
      some ⟨5, 1, [3], 7⟩ :=
  C6_modify_backend_failure failFwd [⟨5, 1, [3], 7⟩] 5 1 [9] ⟨5, 1, [3], 7⟩
    (by decide) rfl (Or.inl ⟨rfl, rfl⟩)

/-! ## Lemmas about the wildcard-delete iteration -/

theorem deleteAllLoop_calls (l : List ind_core_group_t) (st : Store) :
    (deleteAllLoop l st).2 = l.map (fun g => BackendCall.delete g.id) := by
  induction l generalizing st with
  | nil => rfl
  | cons g rest ih => simp [deleteAllLoop, ih]

theorem deleteAllLoop_store (l : List ind_core_group_t) (st : Store) :
    (deleteAllLoop l st).1 =
      st.filter (fun g => !(l.map ind_core_group_t.id).contains g.id) := by
  induction l generalizing st with
  | nil => simp [deleteAllLoop]
  | cons g rest ih =>
    rw [deleteAllLoop]
    rw [ih, store_remove, List.filter_filter]
    apply List.filter_congr
    intro x _
    simp only [List.contains_cons, Bool.not_or, Bool.and_comm]
    by_cases h : x.id = g.id <;> simp [h]

/-- C7: a Delete request with the wildcard id empties the store, invokes the
backend delete once per previously-stored id — visiting each stored record
exactly once, in order — invokes it for no other id, and sends no message
(in particular no error reply). -/
theorem C7_delete_all (st : Store)
    (hnd : (st.map ind_core_group_t.id).Nodup) :
    (ind_core_group_delete_handler st OF_GROUP_ALL).store = [] ∧
    (ind_core_group_delete_handler st OF_GROUP_ALL).calls =
      st.map (fun g => BackendCall.delete g.id) ∧
    (∀ i : Nat,
      (ind_core_group_delete_handler st OF_GROUP_ALL).calls.count
          (BackendCall.delete i) =
        if i ∈ st.map ind_core_group_t.id then 1 else 0) ∧
    (ind_core_group_delete_handler st OF_GROUP_ALL).msgs = [] := by
  have hall : ind_core_group_delete_handler st OF_GROUP_ALL =
      ⟨(deleteAllLoop st st).1, (deleteAllLoop st st).2, []⟩ := by
    simp [ind_core_group_delete_handler]
  rw [hall]
  have hinj : Function.Injective BackendCall.delete := fun a b h => by
    injection h
  refine ⟨?_, deleteAllLoop_calls st st, ?_, rfl⟩
  · rw [deleteAllLoop_store]
    apply List.filter_eq_nil_iff.mpr
    intro g hg
    simp [List.mem_map_of_mem ind_core_group_t.id hg]
  · intro i
    rw [deleteAllLoop_calls]
    have hmm : st.map (fun g => BackendCall.delete g.id) =
        (st.map ind_core_group_t.id).map BackendCall.delete := by
      rw [List.map_map]
      rfl
    rw [hmm]
    by_cases hi : i ∈ st.map ind_core_group_t.id
    · rw [if_pos hi, List.count_map_of_injective _ _ hinj]
      exact List.count_eq_one_of_mem hnd hi
    · rw [if_neg hi]
      apply List.count_eq_zero.mpr
      intro hmem
      obtain ⟨a, ha, hae⟩ := List.mem_map.mp hmem
      exact hi (hinj hae ▸ ha)

/-- Witness for C7 at a concrete two-record store. -/
theorem C7_witness :
    (ind_core_group_delete_handler [⟨1, 1, [], 0⟩, ⟨2, 1, [], 0⟩]
        OF_GROUP_ALL).store = [] ∧
    (ind_core_group_delete_handler [⟨1, 1, [], 0⟩, ⟨2, 1, [], 0⟩]
        OF_GROUP_ALL).calls = [BackendCall.delete 1, BackendCall.delete 2] ∧
    (ind_core_group_delete_handler [⟨1, 1, [], 0⟩, ⟨2, 1, [], 0⟩]
        OF_GROUP_ALL).calls.count (BackendCall.delete 1) = 1 ∧
    (ind_core_group_delete_handler [⟨1, 1, [], 0⟩, ⟨2, 1, [], 0⟩]
        OF_GROUP_ALL).calls.count (BackendCall.delete 3) = 0 ∧
    (ind_core_group_delete_handler [⟨1, 1, [], 0⟩, ⟨2, 1, [], 0⟩]
        OF_GROUP_ALL).msgs = [] := by
  have h := C7_delete_all [⟨1, 1, [], 0⟩, ⟨2, 1, [], 0⟩] (by decide)
  refine ⟨h.1, h.2.1.trans rfl, ?_, ?_, h.2.2.2⟩
  · rw [h.2.2.1 1]
    decide
  · rw [h.2.2.1 3]
    decide

/-! ## Lemmas about the stats reply loops -/

theorem statsEntriesLoop_eq (fwd : Forwarding) (now : indigo_time_t)
    (cap : Nat) (l : List ind_core_group_t) (acc : List StatsEntry) :
    statsEntriesLoop fwd now cap acc l =
      acc ++ (l.map (ind_core_group_stats_entry_populate fwd now)).take
        (cap - acc.length) := by
  induction l generalizing acc with
  | nil => simp [statsEntriesLoop]
  | cons g rest ih =>
    rw [statsEntriesLoop]
    by_cases h : acc.length < cap
    · rw [if_pos h, ih]
      have harith : cap - acc.length = (cap - (acc.length + 1)) + 1 := by
        omega
      simp only [List.length_append, List.length_cons, List.length_nil,
        List.map_cons, List.append_assoc, List.singleton_append]
      rw [harith, List.take_succ_cons]
    · rw [if_neg h]
      have hz : cap - acc.length = 0 := by omega
      simp [hz]

theorem descEntriesLoop_eq (setOk : ind_core_group_t → Bool) (cap : Nat)
    (l : List ind_core_group_t) (acc : List DescStatsEntry)
    (hset : ∀ g ∈ l, setOk g = true) :
    descEntriesLoop setOk cap acc l =
      some (acc ++ (l.map descEntryOf).take (cap - acc.length)) := by
  induction l generalizing acc with
  | nil => simp [descEntriesLoop]
  | cons g rest ih =>
    rw [descEntriesLoop, hset g (List.mem_cons_self g rest)]
    by_cases h : acc.length < cap
    · rw [if_pos rfl, if_pos h,
        ih _ (fun x hx => hset x (List.mem_cons_of_mem g hx))]
      have harith : cap - acc.length = (cap - (acc.length + 1)) + 1 := by
        omega
      simp only [List.length_append, List.length_cons, List.length_nil,
        List.map_cons, List.append_assoc, List.singleton_append]
      rw [harith, List.take_succ_cons]
    · rw [if_pos rfl, if_neg h]
      have hz : cap - acc.length = 0 := by omega
      simp [hz]

/-- C8 counterexample: a stats request for the single stored id 5 with reply
capacity 0 — the entry append fails — makes the handler die on its fatal
assertion; no reply at all is sent, contradicting the claim that the partial
reply is still sent on the single-id path. -/
theorem C8_counterexample :
    ¬ ∃ r : StatsResult,
      ind_core_group_stats_request_handler okFwd [⟨5, 1, [], 0⟩] 0 0 5 =
        some r := by
  rintro ⟨r, h⟩
  rw [show ind_core_group_stats_request_handler okFwd [⟨5, 1, [], 0⟩] 0 0 5 =
      none by decide] at h
  exact Option.noConfusion h

/-- C8 (amended): in the wildcard stats iteration and in the
description-stats iteration, a failed append stops further appending but the
partial reply (the first `cap` entries) is still sent, with no error; on the
single-id stats path, however, a failed append is a fatal assertion: the
process dies and nothing is sent. -/
theorem C8_truncation_behavior (fwd : Forwarding) (st : Store) (cap : Nat)
    (now : indigo_time_t) (setOk : ind_core_group_t → Bool)
    (hset : ∀ g ∈ st, setOk g = true) :
    ind_core_group_stats_request_handler fwd st cap now OF_GROUP_ALL =
      some ⟨st, [Msg.statsReply
        ((st.map (ind_core_group_stats_entry_populate fwd now)).take cap)]⟩ ∧
    ind_core_group_desc_stats_request_handler setOk st cap =
      some ⟨st, [Msg.descStatsReply ((st.map descEntryOf).take cap)]⟩ ∧
    (∀ (id : Nat) (g : ind_core_group_t), id ≠ OF_GROUP_ALL →
      id ≤ OF_GROUP_MAX → ind_core_group_lookup st id = some g →
      ind_core_group_stats_request_handler fwd st 0 now id = none) := by
  refine ⟨?_, ?_, ?_⟩
  · rw [ind_core_group_stats_request_handler, if_pos rfl,
      statsEntriesLoop_eq]
    simp
  · rw [ind_core_group_desc_stats_request_handler,
      descEntriesLoop_eq setOk cap st [] hset]
    simp
  · intro id g hne hle hg
    simp [ind_core_group_stats_request_handler, hne, hle, hg]

/-- Witness for C8 at concrete inputs: two stored records, capacity one. -/
theorem C8_witness :
    ind_core_group_stats_request_handler okFwd
        [⟨1, 1, [], 0⟩, ⟨2, 1, [], 0⟩] 1 0 OF_GROUP_ALL =
      some ⟨[⟨1, 1, [], 0⟩, ⟨2, 1, [], 0⟩], [Msg.statsReply
        (([⟨1, 1, [], 0⟩, ⟨2, 1, [], 0⟩].map
          (ind_core_group_stats_entry_populate okFwd 0)).take 1)]⟩ ∧
    ind_core_group_desc_stats_request_handler (fun _ => true)
        [⟨1, 1, [], 0⟩, ⟨2, 1, [], 0⟩] 1 =
      some ⟨[⟨1, 1, [], 0⟩, ⟨2, 1, [], 0⟩], [Msg.descStatsReply
        (([⟨1, 1, [], 0⟩, ⟨2, 1, [], 0⟩].map descEntryOf).take 1)]⟩ ∧
    ind_core_group_stats_request_handler okFwd
        [⟨1, 1, [], 0⟩, ⟨2, 1, [], 0⟩] 0 0 1 = none := by
  have h := C8_truncation_behavior okFwd [⟨1, 1, [], 0⟩, ⟨2, 1, [], 0⟩] 1 0
    (fun _ => true) (by decide)
  exact ⟨h.1, h.2.1, h.2.2 1 ⟨1, 1, [], 0⟩ (by decide) (by decide) rfl⟩

/-- C9: a stats request for a specific id (not the wildcard) with no stored
record — including ids above `OF_GROUP_MAX` — sends exactly one stats reply
with an empty entry list, no error reply, and leaves the store unchanged. -/
theorem C9_stats_absent (fwd : Forwarding) (st : Store) (cap : Nat)
    (now : indigo_time_t) (id : Nat) (hne : id ≠ OF_GROUP_ALL)
    (habs : ∀ g ∈ st, g.id ≠ id) :
    ind_core_group_stats_request_handler fwd st cap now id =
      some ⟨st, [Msg.statsReply []]⟩ := by
  by_cases hle : id ≤ OF_GROUP_MAX
  · simp [ind_core_group_stats_request_handler, hne, hle,
      lookup_eq_none st id habs]
  · simp [ind_core_group_stats_request_handler, hne, hle]

/-- Witness for C9 at a concrete input: an id above `OF_GROUP_MAX` that is
not the wildcard, with a nonempty store. -/
theorem C9_witness :
    ind_core_group_stats_request_handler okFwd [⟨5, 1, [], 0⟩] 4 0
        0xffffff02 =
      some ⟨[⟨5, 1, [], 0⟩], [Msg.statsReply []]⟩ :=
  C9_stats_absent okFwd [⟨5, 1, [], 0⟩] 4 0 0xffffff02 (by decide)
    (by decide)

/-- C10: for a stored record queried at a time not earlier than its creation
time, the duration in its stats entry is nonnegative, and querying the same
record at a later time reports a duration at least as large (monotone
non-decreasing in the query time). -/
theorem C10_duration_monotone (fwd : Forwarding) (g : ind_core_group_t)
    (t1 t2 : indigo_time_t) (_h1 : g.creation_time ≤ t1) (h12 : t1 ≤ t2) :
    0 ≤ durationNs (ind_core_group_stats_entry_populate fwd t1 g) ∧
    durationNs (ind_core_group_stats_entry_populate fwd t1 g) ≤
      durationNs (ind_core_group_stats_entry_populate fwd t2 g) := by
  have he : ∀ t, durationNs (ind_core_group_stats_entry_populate fwd t g) =
      t - g.creation_time := by
    intro t
    simp only [durationNs, ind_core_group_stats_entry_populate,
      calc_duration]
    omega
  rw [he t1, he t2]
  exact ⟨Nat.zero_le _, Nat.sub_le_sub_right h12 _⟩

/-- Witness for C10 at a concrete input. -/
theorem C10_witness :
    0 ≤ durationNs
        (ind_core_group_stats_entry_populate okFwd 15 ⟨5, 1, [], 10⟩) ∧
    durationNs
        (ind_core_group_stats_entry_populate okFwd 15 ⟨5, 1, [], 10⟩) ≤
      durationNs
        (ind_core_group_stats_entry_populate okFwd 20 ⟨5, 1, [], 10⟩) :=
  C10_duration_monotone okFwd ⟨5, 1, [], 10⟩ 15 20 (by decide) (by decide)

end Indigo
